import Mathlib

/-!
Verification development for the `EnhancedCrawler` engine
(`src/Scripts/crawler.py` of `iso_document_indexer1`).

The pure logic of the crawler is shallowly embedded below: string-processing
helpers model the Python string operations used by the source, the Redis
frontier is modelled as explicit state, and external I/O (HTTP fetches,
PDF parsing via `fitz`, MD5 hashing, the system clock) is abstracted as
parameters or oracle values.  Every definition is translated from the
source file; theorems then settle the claims of the specification.
-/

namespace Crawler

/-! ## String helpers (models of Python string operations) -/

/-- Model of the Python substring test `sub in s`. -/
def hasSubstr (s sub : String) : Bool :=
  s.data.tails.any (fun t => sub.data.isPrefixOf t)

/-- ASCII lower-casing of a single character, as the Python `str.lower()`
acts on the ASCII range (every character the keyword matching of the
crawler cares about is ASCII or `©`, a fixed point of both mappings). -/
def lowerChar (c : Char) : Char :=
  if 'A' ≤ c && c ≤ 'Z' then Char.ofNat (c.toNat + 32) else c

/-- Model of Python `str.lower()` (ASCII case mapping). -/
def pyLower (s : String) : String :=
  ⟨s.data.map lowerChar⟩

/-- Model of Python `str.endswith(suffix)`. -/
def pyEndsWith (s suffix : String) : Bool :=
  suffix.data.isSuffixOf s.data

/-- Model of Python `str.replace(pat, "")` for a fixed pattern `"www."`:
remove every non-overlapping occurrence, scanning left to right.
Used by `get_domain` (crawler.py line 60). -/
def stripWWW : List Char → List Char
  | 'w' :: 'w' :: 'w' :: '.' :: rest => stripWWW rest
  | c :: rest => c :: stripWWW rest
  | [] => []

/-- Model of Python `str.split(sep)[0]` for a single-character separator:
everything before the first occurrence. -/
def takeUntil (c : Char) (s : List Char) : List Char :=
  s.takeWhile (fun x => x ≠ c)

/-- Model of Python `str.split(sep)` for a single-character separator
(splits at every occurrence, keeping empty parts). -/
def splitChar (c : Char) : List Char → List (List Char)
  | [] => [[]]
  | x :: rest =>
      let r := splitChar c rest
      if x = c then [] :: r
      else
        match r with
        | h :: t => (x :: h) :: t
        | [] => [[x]]

/-- Join character lists with a separator character
(model of Python `sep.join(parts)`). -/
def joinWith (c : Char) : List (List Char) → List Char
  | [] => []
  | [p] => p
  | p :: ps => p ++ c :: joinWith c ps

/-- Lexicographic comparison of character lists by code point:
the order Python uses to compare strings. -/
def lexLtChars : List Char → List Char → Bool
  | [], [] => false
  | [], _ :: _ => true
  | _ :: _, [] => false
  | a :: as, b :: bs =>
      if a < b then true
      else if b < a then false
      else lexLtChars as bs

/-- Model of the Python string less-than (lexicographic by code point). -/
def strLt (a b : String) : Bool :=
  lexLtChars a.data b.data

/-! ## `urlparse` fragments

The source calls `urllib.parse.urlparse`.  The crawler only feeds it
absolute `http(s)://netloc/path...` URLs, and uses only `.netloc` and
`.path`; the models below reproduce `urlparse` on that URL shape:
the netloc is everything between `"//"` and the next `/`, `?` or `#`,
and the path runs from that `/` up to the next `?` or `#`. -/

/-- Characters after the first `"//"` of a URL. -/
def afterSlashes : List Char → List Char
  | '/' :: '/' :: rest => rest
  | _ :: rest => afterSlashes rest
  | [] => []

/-- Model of the `.netloc` field of `urlparse` for an absolute URL: the
text between `"//"` and the following `/`, `?` or `#`. -/
def urlNetloc (url : String) : String :=
  ⟨(afterSlashes url.data).takeWhile (fun c => c ≠ '/' && c ≠ '?' && c ≠ '#')⟩

/-- Model of the `.path` field of `urlparse` for an absolute URL: from
the `/` that ends the netloc up to the query/fragment. -/
def urlPath (url : String) : String :=
  ⟨((afterSlashes url.data).dropWhile (fun c => c ≠ '/' && c ≠ '?' && c ≠ '#')).takeWhile
      (fun c => c ≠ '?' && c ≠ '#')⟩

/-! ## `get_domain` (crawler.py lines 58–64) -/

/-- Translation of `EnhancedCrawler.get_domain`:
`netloc.replace(www-dot, empty).split(colon)[0]`, split on dots, and keep the
last two labels when there are at least two. -/
def get_domain (url : String) : String :=
  let netloc : List Char := takeUntil ':' (stripWWW (urlNetloc url).data)
  let parts := splitChar '.' netloc
  if parts.length ≥ 2 then
    ⟨joinWith '.' (parts.drop (parts.length - 2))⟩
  else
    ⟨netloc⟩

/-! ## Year resolution (crawler.py lines 193–198) -/

/-- Model of the Python `min` of a list of strings: left fold keeping the
current element unless the new one is strictly smaller (Python compares
strings lexicographically by code point). -/
def pyMinList (x : String) (xs : List String) : String :=
  xs.foldl (fun a b => if strLt b a = true then b else a) x

/-- Translation of the year-resolution step of `save_file`
(crawler.py lines 193–198): collect the non-`None` candidates in source
order (PDF metadata, first-three-pages content, URL path, filename),
take `min` of them, and fall back to the current system year
(`datetime.now().strftime(%Y)`, abstracted as `currentYear`). -/
def resolveYear (yearMetadata yearContent yearUrl yearFilename : Option String)
    (currentYear : String) : String :=
  let candidates := [yearMetadata, yearContent, yearUrl, yearFilename].filterMap id
  match candidates with
  | [] => currentYear
  | x :: xs => pyMinList x xs

/-! ## The frontier: Redis queue plus seen set

The key `url_queue` is a Redis list (`lpush`/`rpush`/`lpop`) and
`seen_urls` a Redis set.  The model keeps the queue as a list whose head
is the `lpop` end, the seen set as a list of strings, and — as ghost
state for the dequeue-at-most-once claim — the history of URLs the crawl
loop has popped. -/

structure Frontier where
  queue : List String
  seen : List String
  dequeued : List String
  deriving DecidableEq

/-- Translation of the seeding step of `run` (crawler.py lines 412–419):
skip empty or already-seen URLs; `lpush` URLs whose lower-casing ends in
`.pdf`, `rpush` the rest; `sadd` into the seen set. -/
def seedEnqueue (s : Frontier) (url : String) : Frontier :=
  if url = "" ∨ url ∈ s.seen then s
  else
    { queue :=
        if pyEndsWith (pyLower url) ".pdf" then url :: s.queue else s.queue ++ [url],
      seen := url :: s.seen,
      dequeued := s.dequeued }

/-- Translation of the link-enqueue step of `process_url`
(crawler.py lines 352–356): skip seen links; `rpush` and `sadd` otherwise. -/
def discoverEnqueue (s : Frontier) (link : String) : Frontier :=
  if link ∈ s.seen then s
  else
    { queue := s.queue ++ [link], seen := link :: s.seen, dequeued := s.dequeued }

/-- Model of the `lpop` performed by the crawl loop (crawler.py line 423),
with the popped URL recorded in the ghost `dequeued` history. -/
def popUrl (s : Frontier) : Option String × Frontier :=
  match s.queue with
  | [] => (none, s)
  | u :: rest =>
      (some u, { queue := rest, seen := s.seen, dequeued := s.dequeued ++ [u] })

/-- The operations of the crawler that touch `url_queue`: seeding a URL,
enqueueing a discovered link, and the dequeue of the loop. -/
inductive FrontierOp where
  | seed (url : String)
  | discover (url : String)
  | pop
  deriving DecidableEq

def applyOp (s : Frontier) : FrontierOp → Frontier
  | .seed u => seedEnqueue s u
  | .discover u => discoverEnqueue s u
  | .pop => (popUrl s).2

/-- The frontier reached from the post-reset empty state (crawler.py
lines 403–404) by a sequence of enqueue/dequeue operations. -/
def runOps (ops : List FrontierOp) : Frontier :=
  ops.foldl applyOp ⟨[], [], []⟩

/-! ## The external store and the fresh-run reset (crawler.py lines 402–404) -/

/-- The external Redis store, modelled as the assignment of a list of
entries to every key (`url_queue`, `seen_urls`, `downloaded_files`, …). -/
def RedisStore : Type := String → List String

/-- Model of `redis_client.delete(key)`: the content of the key is
dropped, every other key untouched. -/
def redisDelete (store : RedisStore) (key : String) : RedisStore :=
  fun k => if k = key then [] else store k

/-- The fresh-run reset at the top of `run` (crawler.py lines 403–404):
delete `url_queue`, then delete `seen_urls`. -/
def freshRunReset (store : RedisStore) : RedisStore :=
  redisDelete (redisDelete store "url_queue") "seen_urls"

/-! ## Content and the accept gate `should_download` -/

/-- Result of `fitz.open` on a byte stream: the encryption flag and the
page texts (`page.get_text()` for each page, in order). -/
structure PdfDoc where
  encrypted : Bool
  pages : List String
  deriving DecidableEq

/-- Concatenated text of the first (at most) three pages, as built by the
loop over `doc[:min(3, len(doc))]` (crawler.py lines 243–245). -/
def first3Text (d : PdfDoc) : String :=
  (d.pages.take 3).foldl (fun a b => a ++ b) ""

/-- A fetched document body.  The field `size` is the byte length of the
content; `pdf` is the outcome of `fitz.open` on it (`none` models a parse
exception); `yearMetadata` and `yearContent` are oracle values for
`extract_year_from_pdf` and `extract_year_from_content` applied to the
saved bytes (both read the content through the external PDF library, so
they are carried as attributes of the content value). -/
structure Content where
  size : Nat
  pdf : Option PdfDoc
  yearMetadata : Option String
  yearContent : Option String
  deriving DecidableEq

/-- The constant `SUPPORTED_TYPES` (crawler.py line 32). -/
def SUPPORTED_TYPES : List String :=
  ["application/pdf", "text/xml", "application/xml", "text/html"]

/-- Translation of `check_copyright` (crawler.py lines 93–95):
the lower-cased content contains one of the fixed keywords. -/
def check_copyright (content : String) : Bool :=
  ["copyright", "©", "all rights reserved"].any (fun k => hasSubstr (pyLower content) k)

/-- Translation of `should_download` (crawler.py lines 237–251).  For a
declared `application/pdf` type the document is opened (`none` means the
`fitz` call raised; the handler at lines 248–250 turns that into a
rejection), an encrypted document or a copyright marker in the text of
the first three pages rejects; in every surviving case the declared
content-type must be a member of `SUPPORTED_TYPES`. -/
def should_download (url contentType : String) (c : Content) : Bool :=
  if contentType = "application/pdf" then
    match c.pdf with
    | none => false
    | some d =>
        if d.encrypted then false
        else if check_copyright (first3Text d) then false
        else SUPPORTED_TYPES.contains contentType
  else SUPPORTED_TYPES.contains contentType

/-! ## Filename derivation and `save_file` (crawler.py lines 168–207) -/

/-- Model of `os.path.basename`: everything after the last slash. -/
def basename (p : String) : String :=
  ⟨(p.data.reverse.takeWhile (fun c => c ≠ '/')).reverse⟩

/-- A word character of the regex class backslash-w (ASCII range). -/
def isWordChar (c : Char) : Bool :=
  c.isAlphanum || c = '_'

/-- Model of the regex search for a dot followed by one or more word
characters at the end of the name (crawler.py line 176): the name ends
in a nonempty run of word characters preceded by a dot. -/
def hasWordExt (f : String) : Bool :=
  let revd := f.data.reverse
  let w := revd.takeWhile isWordChar
  !w.isEmpty && (revd.drop w.length).head? = some '.'

/-- Model of `os.path.splitext(p)[1]`: the extension of the last path
component, taken from its last dot, where dots leading the component do
not start an extension. -/
def splitextExt (p : String) : String :=
  let b := (basename p).data
  let rest := b.dropWhile (fun c => c = '.')
  if rest.contains '.' then
    ⟨'.' :: (b.reverse.takeWhile (fun c => c ≠ '.')).reverse⟩
  else ""

/-- The filename derivation of `save_file` (crawler.py lines 172–183):
basename of the URL path, an MD5 hex digest of the URL when that is
empty (`md5hex` abstracts `hashlib.md5`), and an extension appended when
the regex finds none: `.pdf` when the string `pdf` occurs in the declared
content-type, else `.xml` when `xml` occurs in it, else the extension of
the URL path, defaulting to `.bin`. -/
def deriveFilename (md5hex : String → String) (url contentType : String) : String :=
  let f0 := basename (urlPath url)
  let f1 := if f0 = "" then md5hex url else f0
  if hasWordExt f1 then f1
  else if hasSubstr contentType "pdf" then f1 ++ ".pdf"
  else if hasSubstr contentType "xml" then f1 ++ ".xml"
  else
    let ext := splitextExt (urlPath url)
    f1 ++ (if ext = "" then ".bin" else ext)

/-- Filesystem effects of one `save_file` call: the directories passed to
`os.makedirs`, whether the temporary file was written and removed, and
the target of the final `os.rename`. -/
structure SaveEffects where
  dirsCreated : List String
  tempWritten : Bool
  tempRemoved : Bool
  renamedTo : Option String
  deriving DecidableEq

/-- Ambient values of the crawler process that `save_file` and the
download path read: the output root (`OUTPUT_DIR`), the clock, the MD5
digest, and the pure regex extractors `extract_year_from_url` and
`extract_year_from_filename` (oracles for the `re` library searches). -/
structure SaveEnv where
  root : String
  currentYear : String
  now : String
  md5hex : String → String
  yearFromUrl : String → Option String
  yearFromFilename : String → Option String

/-- Translation of `save_file` (crawler.py lines 168–207).  The domain
directory is created and the content written to a temporary file; a
content below 50 bytes removes the temporary file and returns the null
pair; otherwise the year is resolved, the year directory created, and
the temporary file renamed to its final location. -/
def save_file (env : SaveEnv) (c : Content) (domain url contentType : String) :
    (Option String × Option String) × SaveEffects :=
  let domainDir := env.root ++ "/" ++ domain
  let filename := deriveFilename env.md5hex url contentType
  if c.size < 50 then
    ((none, none),
      { dirsCreated := [domainDir], tempWritten := true, tempRemoved := true,
        renamedTo := none })
  else
    let year := resolveYear c.yearMetadata c.yearContent
      (env.yearFromUrl url) (env.yearFromFilename filename) env.currentYear
    let yearDir := domainDir ++ "/" ++ year
    let finalPath := yearDir ++ "/" ++ filename
    ((some finalPath, some year),
      { dirsCreated := [domainDir, yearDir], tempWritten := true, tempRemoved := false,
        renamedTo := some finalPath })

/-! ## Events and the environment of the crawl engine

Per-URL processing is modelled as a function that, besides its result
and the frontier it leaves behind, emits the ordered trace of externally
visible actions it performs.  Network responses, rendering results and
page contents are supplied by an environment record. -/

instance {ε α : Type} [DecidableEq ε] [DecidableEq α] : DecidableEq (Except ε α) :=
  fun x y =>
    match x, y with
    | .ok a, .ok b => if h : a = b then isTrue (by rw [h]) else isFalse (by simp [h])
    | .error e, .error f => if h : e = f then isTrue (by rw [h]) else isFalse (by simp [h])
    | .ok _, .error _ => isFalse (by simp)
    | .error _, .ok _ => isFalse (by simp)

/-- A record appended to `downloaded_files` by `log_download`
(crawler.py lines 157–166). -/
structure LogEntry where
  timestamp : String
  url : String
  domain : String
  year : Option String
  filePath : Option String
  deriving DecidableEq

/-- Externally visible actions of per-URL processing.  The constructor
`robotsCheck` stands for a call to `can_fetch` (the robots-exclusion
gate); the others are the politeness sleep, a browser rendering, a raw
HTTP GET, an `rpush` onto `url_queue`, and an `lpush` onto
`downloaded_files`. -/
inductive Event where
  | sleepDelay
  | robotsCheck (url : String)
  | jsRender (url : String)
  | httpGet (url : String)
  | enqueue (url : String)
  | logDownload (entry : LogEntry)
  deriving DecidableEq

/-- An HTTP response as the download path reads it: status code,
declared content-type header, and body. -/
structure HttpResp where
  status : Nat
  contentType : String
  content : Content
  deriving DecidableEq

/-- The external world of one crawl run.  A `.error` value of `httpGet`
or `fallbackGet` models an exception raised by the HTTP library;
`jsRender` models `handle_javascript_content`, which catches its own
errors and returns `none` for them; `pageLinks page url` is the result
of `extract_links` on the parsed page (already filtered by the domain
allow-list), and `embeddedLinks page url` the list of embedded document
URLs `check_for_embedded_documents` collects from the page. -/
structure Env where
  save : SaveEnv
  httpGet : String → Except String HttpResp
  jsRender : String → Option String
  fallbackGet : String → Except String (Nat × String)
  pageLinks : String → String → List String
  embeddedLinks : String → String → List String

/-- Translation of the dead politeness gate `can_fetch`
(crawler.py lines 66–78): `robotsFetch` abstracts fetching and parsing
the robots file of the domain of the URL; on success the verdict of the
parser for the wildcard agent is returned, on failure the handler only
logs, so the Python function falls through and returns `None`.  No call
site of this function exists anywhere in the repository. -/
def can_fetch (robotsFetch : String → Except String (String → Bool)) (url : String) :
    Option Bool :=
  match robotsFetch (get_domain url) with
  | .error _ => none
  | .ok verdict => some (verdict url)

/-- Translation of `download_pdf_direct` (crawler.py lines 365–376):
GET the URL (a raised exception propagates), fail on a non-200 status,
and when `should_download` accepts, call `save_file` and
unconditionally `log_download` its resulting pair — the entry is
recorded whether or not the save succeeded. -/
def download_pdf_direct (env : Env) (url domain : String) :
    List Event × Except String Bool :=
  match env.httpGet url with
  | .error e => ([Event.httpGet url], .error e)
  | .ok resp =>
      if resp.status ≠ 200 then ([Event.httpGet url], .ok false)
      else if should_download url resp.contentType resp.content then
        let pr := save_file env.save resp.content domain url resp.contentType
        ([Event.httpGet url,
          Event.logDownload ⟨env.save.now, url, domain, pr.1.2, pr.1.1⟩], .ok true)
      else ([Event.httpGet url], .ok false)

/-- The link loop of `process_url` (crawler.py lines 352–356): each
extracted link that is not in the seen set is pushed at the tail of the
queue and inserted into the seen set. -/
def enqueueLinks (s : Frontier) : List String → Frontier × List Event
  | [] => (s, [])
  | l :: ls =>
      if l ∈ s.seen then enqueueLinks s ls
      else
        let r := enqueueLinks (discoverEnqueue s l) ls
        (r.1, Event.enqueue l :: r.2)

/-- The download loop of `check_for_embedded_documents`
(crawler.py lines 317–322) over an already-extracted list of embedded
document URLs: every URL not in the seen set is processed by a recursive
`process_url` call (supplied as `recurse`); nothing is added to the seen
set here. -/
def embeddedLoop (recurse : Frontier → String → List Event × Frontier × Bool)
    (s : Frontier) : List String → List Event × Frontier
  | [] => ([], s)
  | d :: ds =>
      if d ∈ s.seen then embeddedLoop recurse s ds
      else
        let r := recurse s d
        let r2 := embeddedLoop recurse r.2.1 ds
        (r.1 ++ r2.1, r2.2)

/-- Translation of `check_for_embedded_documents`
(crawler.py lines 296–322).  The page markup is `none` when the caller
passes on the `None` it got from a failed rendering: the
`BeautifulSoup` constructor raises a `TypeError` on a `None` markup,
modelled as the error result.  Otherwise the embedded document URLs are
collected and run through `embeddedLoop`. -/
def checkEmbedded (recurse : Frontier → String → List Event × Frontier × Bool)
    (env : Env) (page : Option String) (url : String) (s : Frontier) :
    List Event × Frontier × Except String Unit :=
  match page with
  | none => ([], s, .error "TypeError: object of type NoneType has no len()")
  | some markup =>
      let r := embeddedLoop recurse s (env.embeddedLinks markup url)
      (r.1, r.2, .ok ())

/-- One unfolding of the body of `process_url` (crawler.py lines
324–363), parameterised by the recursive call used for embedded
documents.  A direct `.pdf`/`.xml` URL goes through
`download_pdf_direct`; otherwise the page is rendered (falling back to a
raw GET), links are extracted and enqueued, and embedded documents are
processed.  An `Except.error` result models an exception leaving the
body, to be caught by the handler at lines 361–363. -/
def processUrlStep (env : Env)
    (recurse : Frontier → String → List Event × Frontier × Bool)
    (s : Frontier) (url : String) : List Event × Frontier × Except String Bool :=
  let domain := get_domain url
  if pyEndsWith (pyLower url) ".pdf" || pyEndsWith (pyLower url) ".xml" then
    let r := download_pdf_direct env url domain
    (Event.sleepDelay :: r.1, s, r.2)
  else
    match env.jsRender url with
    | some html =>
        let r1 := enqueueLinks s (env.pageLinks html url)
        let r2 := checkEmbedded recurse env (some html) url r1.1
        match r2.2.2 with
        | .ok _ => (Event.sleepDelay :: Event.jsRender url :: (r1.2 ++ r2.1), r2.2.1, .ok true)
        | .error e => (Event.sleepDelay :: Event.jsRender url :: (r1.2 ++ r2.1), r2.2.1, .error e)
    | none =>
        match env.fallbackGet url with
        | .error e =>
            ([Event.sleepDelay, Event.jsRender url, Event.httpGet url], s, .error e)
        | .ok st =>
            if st.1 ≠ 200 then
              ([Event.sleepDelay, Event.jsRender url, Event.httpGet url], s, .ok false)
            else
              let r1 := enqueueLinks s (env.pageLinks st.2 url)
              let r2 := checkEmbedded recurse env none url r1.1
              match r2.2.2 with
              | .ok _ =>
                  (Event.sleepDelay :: Event.jsRender url :: Event.httpGet url :: (r1.2 ++ r2.1),
                    r2.2.1, .ok true)
              | .error e =>
                  (Event.sleepDelay :: Event.jsRender url :: Event.httpGet url :: (r1.2 ++ r2.1),
                    r2.2.1, .error e)

/-- The body of `process_url` before its exception handler, with a fuel
bound on the recursion through embedded documents (exhausted fuel models
the `RecursionError` the Python runtime raises on unbounded recursion,
an `Exception` like any other).  The recursive calls go through the
handler, so a failing embedded document yields `false` and processing
continues. -/
def processUrlBody (env : Env) : Nat → Frontier → String → List Event × Frontier × Except String Bool
  | 0, s, _ => ([], s, .error "RecursionError: maximum recursion depth exceeded")
  | Nat.succ fuel, s, url =>
      processUrlStep env
        (fun s1 d =>
          match processUrlBody env fuel s1 d with
          | (evs, s2, Except.ok b) => (evs, s2, b)
          | (evs, s2, Except.error _) => (evs, s2, false))
        s url

/-- Translation of `process_url` as its callers observe it: the body
wrapped in the `try`/`except` of lines 325–363, which converts any
raised exception into the result `False`. -/
def process_url (env : Env) (fuel : Nat) (s : Frontier) (url : String) :
    List Event × Frontier × Except String Bool :=
  match processUrlBody env fuel s url with
  | (evs, s1, Except.ok b) => (evs, s1, Except.ok b)
  | (evs, s1, Except.error _) => (evs, s1, Except.ok false)

/-- Whitespace as the Python `str.strip()` removes it. -/
def isPySpace (c : Char) : Bool :=
  c = ' ' || c = '\t' || c = '\n' || c = '\r' || c = '\x0b' || c = '\x0c'

/-- Model of Python `str.strip()`. -/
def pyStrip (s : String) : String :=
  ⟨((s.data.dropWhile isPySpace).reverse.dropWhile isPySpace).reverse⟩

/-- The crawl loop of `run` (crawler.py lines 422–432), bounded to `n`
iterations.  Each iteration pops a URL (an empty queue only sleeps and
retries), strips it, and processes it; the loop records the processed
URLs with their results.  The final `Bool` is true when an exception
escaped `process_url` and killed the loop — the faithful propagation of
an `Except.error` result. -/
def crawlLoop (env : Env) (fuel : Nat) :
    Nat → Frontier → Frontier × List (String × Bool) × Bool
  | 0, s => (s, [], false)
  | Nat.succ n, s =>
      match popUrl s with
      | (none, s1) => crawlLoop env fuel n s1
      | (some u, s1) =>
          match process_url env fuel s1 (pyStrip u) with
          | (_, s2, Except.ok b) =>
              let r := crawlLoop env fuel n s2
              (r.1, (u, b) :: r.2.1, r.2.2)
          | (_, s2, Except.error _) => (s2, [], true)

/-! ## Observation helpers and concrete demonstration inputs -/

/-- Is this event an evaluation of the robots-exclusion gate? -/
def isRobotsEvent : Event → Bool
  | .robotsCheck _ => true
  | _ => false

/-- Is this event a fetch of a URL (raw HTTP GET or browser rendering)? -/
def isFetchEvent : Event → Bool
  | .httpGet _ => true
  | .jsRender _ => true
  | _ => false

/-- The download-log entries recorded in a trace, in order. -/
def logEntries (evs : List Event) : List LogEntry :=
  evs.filterMap (fun e =>
    match e with
    | .logDownload en => some en
    | _ => none)

/-- Invariant of the frontier: every URL occurs at most once in the
queue and dequeue history combined, and everything that has ever been
enqueued is in the seen set. -/
def GoodState (s : Frontier) : Prop :=
  (∀ u : String, s.queue.count u + s.dequeued.count u ≤ 1) ∧
  (∀ u : String, u ∈ s.queue ∨ u ∈ s.dequeued → u ∈ s.seen)

/-- A concrete environment: every direct GET answers 200 with a declared
`text/html` type and a 10-byte body; rendering fails; the fallback GET
raises; pages are without links. -/
def demoEnv : Env :=
  { save := { root := "data/raw", currentYear := "2025", now := "T0",
              md5hex := fun _ => "d41d8", yearFromUrl := fun _ => none,
              yearFromFilename := fun _ => none },
    httpGet := fun _ => .ok { status := 200, contentType := "text/html",
                              content := { size := 10, pdf := none,
                                           yearMetadata := none, yearContent := none } },
    jsRender := fun _ => none,
    fallbackGet := fun _ => .error "ConnectionError",
    pageLinks := fun _ _ => [],
    embeddedLinks := fun _ _ => [] }

/-- A concrete content of exactly 50 bytes, not parseable as a PDF and
with no year signals. -/
def demoContent50 : Content :=
  { size := 50, pdf := none, yearMetadata := none, yearContent := none }

/-- A concrete content of 49 bytes. -/
def demoContent49 : Content :=
  { size := 49, pdf := none, yearMetadata := none, yearContent := none }

/-- A concrete save environment with a fixed clock and trivial oracles. -/
def demoSaveEnv : SaveEnv :=
  { root := "data/raw", currentYear := "2025", now := "T0",
    md5hex := fun _ => "d41d8cd98f00b204e9800998ecf8427e",
    yearFromUrl := fun u => if u = "https://example.com/2022/doc.pdf" then some "2022" else none,
    yearFromFilename := fun _ => none }

/-- A concrete store with one download-log entry and junk under every
other key. -/
def demoStore : RedisStore :=
  fun k => if k = "downloaded_files" then ["entry1"] else ["x"]

/-! ## Order lemmas for the string comparison -/

theorem lexLtChars_iff_lex (x y : List Char) :
    lexLtChars x y = true ↔ List.Lex (· < ·) x y := by
  induction x generalizing y with
  | nil =>
      cases y with
      | nil => simp [lexLtChars]
      | cons b bs => simp [lexLtChars]; exact List.Lex.nil
  | cons a as ih =>
      cases y with
      | nil => simp [lexLtChars]
      | cons b bs =>
          simp only [lexLtChars]
          by_cases hab : a < b
          · rw [if_pos hab]
            simp only [true_iff]
            exact List.Lex.rel hab
          · by_cases hba : b < a
            · rw [if_neg hab, if_pos hba]
              simp only [Bool.false_eq_true, false_iff]
              intro h
              cases h with
              | cons h2 => exact absurd hba (lt_irrefl a)
              | rel h2 => exact absurd h2 hab
            · have heq : a = b := le_antisymm (not_lt.mp hba) (not_lt.mp hab)
              subst heq
              rw [if_neg hab, if_neg hba]
              rw [ih]
              exact (List.Lex.cons_iff).symm

theorem strLt_iff (a b : String) : strLt a b = true ↔ List.Lex (· < ·) a.data b.data :=
  lexLtChars_iff_lex a.data b.data

theorem strLt_trans {a b c : String} (h1 : strLt a b = true) (h2 : strLt b c = true) :
    strLt a c = true := by
  rw [strLt_iff] at h1 h2 ⊢
  exact IsTrans.trans _ _ _ h1 h2

theorem strLt_trichotomy (a b : String) :
    strLt a b = true ∨ a = b ∨ strLt b a = true := by
  rcases trichotomous_of (List.Lex ((· < ·) : Char → Char → Prop)) a.data b.data with h | h | h
  · exact Or.inl ((strLt_iff a b).mpr h)
  · refine Or.inr (Or.inl ?_)
    cases a
    cases b
    exact congrArg String.mk h
  · exact Or.inr (Or.inr ((strLt_iff b a).mpr h))

theorem strLt_irrefl (a : String) : strLt a a = false := by
  cases hv : strLt a a with
  | false => rfl
  | true => exact absurd ((strLt_iff a a).mp hv) (irrefl_of (List.Lex (· < ·)) a.data)

/-! ## The Python minimum of a string list -/

theorem pyMinList_cons (x b : String) (bs : List String) :
    pyMinList x (b :: bs) = pyMinList (if strLt b x = true then b else x) bs := rfl

theorem pyMinList_mem (x : String) (xs : List String) : pyMinList x xs ∈ x :: xs := by
  induction xs generalizing x with
  | nil => simp [pyMinList]
  | cons b bs ih =>
      rw [pyMinList_cons]
      by_cases h : strLt b x = true
      · rw [if_pos h]
        rcases List.mem_cons.mp (ih b) with h1 | h1
        · rw [h1]
          exact List.mem_cons_of_mem x (List.mem_cons_self b bs)
        · exact List.mem_cons_of_mem x (List.mem_cons_of_mem b h1)
      · rw [if_neg h]
        rcases List.mem_cons.mp (ih x) with h1 | h1
        · rw [h1]
          exact List.mem_cons_self x (b :: bs)
        · exact List.mem_cons_of_mem x (List.mem_cons_of_mem b h1)

theorem pyMinList_min (x : String) (xs : List String) :
    ∀ y ∈ x :: xs, strLt y (pyMinList x xs) = false := by
  induction xs generalizing x with
  | nil =>
      intro y hy
      have hyx : y = x := by simpa using hy
      subst hyx
      simpa [pyMinList] using strLt_irrefl y
  | cons b bs ih =>
      intro y hy
      rw [pyMinList_cons]
      by_cases h : strLt b x = true
      · rw [if_pos h]
        rcases List.mem_cons.mp hy with h1 | h1
        · -- the dropped element x: the minimum is at or below b, and b is below x
          subst h1
          by_contra hv
          have hv2 : strLt y (pyMinList b bs) = true := by
            cases hvv : strLt y (pyMinList b bs) with
            | true => rfl
            | false => exact absurd hvv hv
          have hbr : strLt b (pyMinList b bs) = true := strLt_trans h hv2
          have hcontra := ih b b (List.mem_cons_self b bs)
          rw [hbr] at hcontra
          exact absurd hcontra (by decide)
        · exact ih b y h1
      · rw [if_neg h]
        rcases List.mem_cons.mp hy with h1 | h1
        · subst h1
          exact ih y y (List.mem_cons_self y bs)
        · rcases List.mem_cons.mp h1 with h2 | h2
          · -- the dropped element b: here x is at or below b
            subst h2
            by_contra hv
            have hv2 : strLt y (pyMinList x bs) = true := by
              cases hvv : strLt y (pyMinList x bs) with
              | true => rfl
              | false => exact absurd hvv hv
            have hxr : strLt x (pyMinList x bs) = false :=
              ih x x (List.mem_cons_self x bs)
            rcases strLt_trichotomy y x with h3 | h3 | h3
            · exact absurd h3 h
            · rw [h3] at hv2
              rw [hv2] at hxr
              exact absurd hxr (by decide)
            · have hcontra : strLt x (pyMinList x bs) = true := strLt_trans h3 hv2
              rw [hcontra] at hxr
              exact absurd hxr (by decide)
          · exact ih x y (List.mem_cons_of_mem x h2)

/-! ## Frontier invariant -/

theorem goodState_seedEnqueue {s : Frontier} (hs : GoodState s) (url : String) :
    GoodState (seedEnqueue s url) := by
  obtain ⟨hcount, hmem⟩ := hs
  by_cases hguard : url = "" ∨ url ∈ s.seen
  · unfold seedEnqueue
    rw [if_pos hguard]
    exact ⟨hcount, hmem⟩
  · have hnotseen : url ∉ s.seen := fun h2 => hguard (Or.inr h2)
    have hqz : s.queue.count url = 0 :=
      List.count_eq_zero.mpr (fun h2 => hnotseen (hmem url (Or.inl h2)))
    have hdz : s.dequeued.count url = 0 :=
      List.count_eq_zero.mpr (fun h2 => hnotseen (hmem url (Or.inr h2)))
    by_cases hpdf : pyEndsWith (pyLower url) ".pdf" = true
    · have hred : seedEnqueue s url =
          { queue := url :: s.queue, seen := url :: s.seen, dequeued := s.dequeued } := by
        unfold seedEnqueue
        rw [if_neg hguard, if_pos hpdf]
      rw [hred]
      constructor
      · intro u
        by_cases hu : u = url
        · subst hu
          simp only [List.count_cons_self, hqz, hdz]
          omega
        · have hc := hcount u
          simp only [List.count_cons_of_ne hu]
          exact hc
      · intro u hu
        rcases hu with hu | hu
        · rcases List.mem_cons.mp hu with h1 | h1
          · exact h1 ▸ List.mem_cons_self _ _
          · exact List.mem_cons_of_mem _ (hmem u (Or.inl h1))
        · exact List.mem_cons_of_mem _ (hmem u (Or.inr hu))
    · have hred : seedEnqueue s url =
          { queue := s.queue ++ [url], seen := url :: s.seen, dequeued := s.dequeued } := by
        unfold seedEnqueue
        rw [if_neg hguard, if_neg hpdf]
      rw [hred]
      constructor
      · intro u
        by_cases hu : u = url
        · subst hu
          simp [List.count_append, hqz, hdz]
        · have hc := hcount u
          have hu2 : ¬(url = u) := fun h => hu h.symm
          simp only [List.count_append, List.count_singleton', if_neg hu2]
          omega
      · intro u hu
        rcases hu with hu | hu
        · rcases List.mem_append.mp hu with h1 | h1
          · exact List.mem_cons_of_mem _ (hmem u (Or.inl h1))
          · have h2 : u = url := by simpa using h1
            exact h2 ▸ List.mem_cons_self _ _
        · exact List.mem_cons_of_mem _ (hmem u (Or.inr hu))

theorem goodState_discoverEnqueue {s : Frontier} (hs : GoodState s) (link : String) :
    GoodState (discoverEnqueue s link) := by
  obtain ⟨hcount, hmem⟩ := hs
  by_cases hguard : link ∈ s.seen
  · unfold discoverEnqueue
    rw [if_pos hguard]
    exact ⟨hcount, hmem⟩
  · have hqz : s.queue.count link = 0 :=
      List.count_eq_zero.mpr (fun h2 => hguard (hmem link (Or.inl h2)))
    have hdz : s.dequeued.count link = 0 :=
      List.count_eq_zero.mpr (fun h2 => hguard (hmem link (Or.inr h2)))
    have hred : discoverEnqueue s link =
        { queue := s.queue ++ [link], seen := link :: s.seen, dequeued := s.dequeued } := by
      unfold discoverEnqueue
      rw [if_neg hguard]
    rw [hred]
    constructor
    · intro u
      by_cases hu : u = link
      · subst hu
        simp [List.count_append, hqz, hdz]
      · have hc := hcount u
        have hu2 : ¬(link = u) := fun h => hu h.symm
        simp only [List.count_append, List.count_singleton', if_neg hu2]
        omega
    · intro u hu
      rcases hu with hu | hu
      · rcases List.mem_append.mp hu with h1 | h1
        · exact List.mem_cons_of_mem _ (hmem u (Or.inl h1))
        · have h2 : u = link := by simpa using h1
          exact h2 ▸ List.mem_cons_self _ _
      · exact List.mem_cons_of_mem _ (hmem u (Or.inr hu))

theorem goodState_popUrl {s : Frontier} (hs : GoodState s) :
    GoodState (popUrl s).2 := by
  obtain ⟨hcount, hmem⟩ := hs
  unfold popUrl
  cases hq : s.queue with
  | nil => exact ⟨hcount, hmem⟩
  | cons v rest =>
      constructor
      · intro u
        have hc := hcount u
        rw [hq] at hc
        by_cases hu : u = v
        · subst hu
          rw [List.count_cons_self] at hc
          simp [List.count_append]
          omega
        · rw [List.count_cons_of_ne hu] at hc
          simp [List.count_append, List.count_singleton', hu]
          omega
      · intro u hu
        rcases hu with hu | hu
        · exact hmem u (Or.inl (hq ▸ List.mem_cons_of_mem v hu))
        · rcases List.mem_append.mp hu with h1 | h1
          · exact hmem u (Or.inr h1)
          · have : u = v := by simpa using h1
            exact hmem u (Or.inl (hq ▸ (this ▸ List.mem_cons_self v rest)))

theorem goodState_applyOp {s : Frontier} (hs : GoodState s) (op : FrontierOp) :
    GoodState (applyOp s op) := by
  cases op with
  | seed u => exact goodState_seedEnqueue hs u
  | discover u => exact goodState_discoverEnqueue hs u
  | pop => exact goodState_popUrl hs

theorem goodState_foldl (ops : List FrontierOp) :
    ∀ s : Frontier, GoodState s → GoodState (ops.foldl applyOp s) := by
  induction ops with
  | nil => intro s hs; exact hs
  | cons op rest ih =>
      intro s hs
      exact ih (applyOp s op) (goodState_applyOp hs op)

theorem goodState_runOps (ops : List FrontierOp) : GoodState (runOps ops) := by
  apply goodState_foldl
  constructor
  · intro u; simp
  · intro u hu; simp at hu

/-! ## Claim C1 -/

/-- C1: starting from the freshly reset frontier, after any sequence of
seeding, link-discovery and dequeue operations — with repeated URLs
allowed — each distinct URL occurs at most once in the pending queue and
the dequeue history combined: every enqueue is guarded by the seen-set
membership check and accompanied by a seen-set insertion, so a URL is
added to the queue at most once and dequeued at most once. -/
theorem frontier_dedup (ops : List FrontierOp) (u : String) :
    ((runOps ops).queue).count u + ((runOps ops).dequeued).count u ≤ 1 :=
  (goodState_runOps ops).1 u

/-! ## Claim C2 -/

/-- C2: year resolution returns the lexicographically smallest string
among the non-null candidates from PDF metadata, first-three-pages text,
URL path and filename; for the candidates 2021, 2019, 2023 it returns
2019, and when every candidate is null it returns the current system
year. -/
theorem year_resolution_spec (m c u f : Option String) (cy : String) :
    ([m, c, u, f].filterMap id = [] → resolveYear m c u f cy = cy) ∧
    ([m, c, u, f].filterMap id ≠ [] →
      resolveYear m c u f cy ∈ [m, c, u, f].filterMap id) ∧
    (∀ y ∈ [m, c, u, f].filterMap id, strLt y (resolveYear m c u f cy) = false) ∧
    resolveYear (some "2021") (some "2019") (some "2023") none cy = "2019" := by
  refine ⟨?_, ?_, ?_, ?_⟩
  · intro h
    simp only [resolveYear]
    rw [h]
  · intro h
    cases hc : [m, c, u, f].filterMap id with
    | nil => exact absurd hc h
    | cons a as =>
        simp only [resolveYear]
        rw [hc]
        exact pyMinList_mem a as
  · intro y hy
    cases hc : [m, c, u, f].filterMap id with
    | nil => rw [hc] at hy; cases hy
    | cons a as =>
        rw [hc] at hy
        simp only [resolveYear]
        rw [hc]
        exact pyMinList_min a as y hy
  · rfl

/-- Witness for C2 at concrete inputs: with no candidates the given
current year is returned, and the candidate set 2021, 2019, 2023
resolves to 2019. -/
theorem year_resolution_spec_witness :
    resolveYear none none none none "2031" = "2031" ∧
    resolveYear (some "2021") (some "2019") (some "2023") none "2031" = "2019" :=
  ⟨(year_resolution_spec none none none none "2031").1 (by decide),
   (year_resolution_spec (some "2021") (some "2019") (some "2023") none "2031").2.2.2⟩

/-! ## Claim C5 -/

/-- C5 counterexample: a direct-document link discovered during crawling
is enqueued at the tail, not the head, of a nonempty queue, and a seed
URL ending in `.xml` is likewise enqueued at the tail — refuting the
claim that every enqueue places direct-document URLs at the head. -/
theorem enqueue_priority_cex :
    (discoverEnqueue ⟨["https://a.com/page"], ["https://a.com/page"], []⟩
        "https://a.com/doc.pdf").queue =
      ["https://a.com/page", "https://a.com/doc.pdf"] ∧
    (seedEnqueue ⟨["https://a.com/page"], ["https://a.com/page"], []⟩
        "https://a.com/file.xml").queue =
      ["https://a.com/page", "https://a.com/file.xml"] := by
  decide

/-- C5 amended: only seed URLs whose lower-cased form ends in `.pdf` are
enqueued at the head; every other seed URL (including `.xml` documents)
and every link discovered during crawling is enqueued at the tail in
FIFO order. -/
theorem enqueue_priority (s : Frontier) (u : String) :
    (u ≠ "" → u ∉ s.seen →
      (seedEnqueue s u).queue =
        if pyEndsWith (pyLower u) ".pdf" then u :: s.queue else s.queue ++ [u]) ∧
    (u ∉ s.seen → (discoverEnqueue s u).queue = s.queue ++ [u]) := by
  constructor
  · intro h1 h2
    unfold seedEnqueue
    rw [if_neg (by push_neg; exact ⟨h1, h2⟩)]
  · intro h2
    unfold discoverEnqueue
    rw [if_neg h2]

/-- Witness for C5 amended: a fresh `.pdf` seed goes to the head of the
empty queue and a fresh discovered link to the tail. -/
theorem enqueue_priority_witness :
    (seedEnqueue ⟨[], [], []⟩ "https://a.com/doc.pdf").queue = ["https://a.com/doc.pdf"] ∧
    (discoverEnqueue ⟨[], [], []⟩ "https://a.com/page").queue = ["https://a.com/page"] := by
  constructor
  · rw [(enqueue_priority ⟨[], [], []⟩ "https://a.com/doc.pdf").1 (by decide) (by decide)]
    decide
  · rw [(enqueue_priority ⟨[], [], []⟩ "https://a.com/page").2 (by decide)]
    decide

/-! ## Claim C7 -/

/-- C7 counterexample: domain derivation keeps only the last two labels,
so `https://docs.example.co.uk/x` maps to `co.uk`, not to the registrable
domain `example.co.uk` the claim names. -/
theorem get_domain_cex :
    get_domain "https://docs.example.co.uk/x" = "co.uk" ∧
    get_domain "https://www.example.co.uk/y" = "co.uk" ∧
    ("co.uk" : String) ≠ "example.co.uk" := by
  decide

/-- C7 amended: the two URLs map to the same derived domain, namely the
last two labels `co.uk` — the two-label heuristic does not special-case
multi-part public suffixes, so the shared value is not `example.co.uk`. -/
theorem get_domain_last_two :
    get_domain "https://docs.example.co.uk/x" = get_domain "https://www.example.co.uk/y" ∧
    get_domain "https://docs.example.co.uk/x" = "co.uk" := by
  decide

/-! ## Claim C8 -/

/-- C8: for every content, domain, URL and declared type, a content
smaller than 50 bytes is rejected — the temporary file is deleted, no
directory is created under the domain directory, and the null pair is
returned — while a content of exactly 50 bytes passes the boundary-
inclusive floor and proceeds to year resolution and the rename to
`root/domain/year/filename`. -/
theorem save_file_size_floor (env : SaveEnv) (c : Content)
    (domain url contentType : String) :
    (c.size < 50 →
      save_file env c domain url contentType =
        ((none, none),
          { dirsCreated := [env.root ++ "/" ++ domain], tempWritten := true,
            tempRemoved := true, renamedTo := none })) ∧
    (c.size = 50 →
      save_file env c domain url contentType =
        ((some (env.root ++ "/" ++ domain ++ "/" ++
            resolveYear c.yearMetadata c.yearContent (env.yearFromUrl url)
              (env.yearFromFilename (deriveFilename env.md5hex url contentType))
              env.currentYear ++ "/" ++ deriveFilename env.md5hex url contentType),
          some (resolveYear c.yearMetadata c.yearContent (env.yearFromUrl url)
              (env.yearFromFilename (deriveFilename env.md5hex url contentType))
              env.currentYear)),
         { dirsCreated := [env.root ++ "/" ++ domain,
             env.root ++ "/" ++ domain ++ "/" ++
               resolveYear c.yearMetadata c.yearContent (env.yearFromUrl url)
                 (env.yearFromFilename (deriveFilename env.md5hex url contentType))
                 env.currentYear],
           tempWritten := true, tempRemoved := false,
           renamedTo := some (env.root ++ "/" ++ domain ++ "/" ++
             resolveYear c.yearMetadata c.yearContent (env.yearFromUrl url)
               (env.yearFromFilename (deriveFilename env.md5hex url contentType))
               env.currentYear ++ "/" ++ deriveFilename env.md5hex url contentType) })) := by
  constructor
  · intro h
    unfold save_file
    rw [if_pos h]
  · intro h
    unfold save_file
    rw [if_neg (by omega)]

/-- Witness for C8: a 49-byte content is rejected with only the domain
directory created, and a 50-byte content of the end-to-end scenario is
stored at `data/raw/example.com/2022/doc.pdf` with resolved year 2022. -/
theorem save_file_size_floor_witness :
    save_file demoSaveEnv demoContent49 "example.com"
        "https://example.com/2022/doc.pdf" "application/pdf" =
      ((none, none),
        { dirsCreated := ["data/raw/example.com"], tempWritten := true,
          tempRemoved := true, renamedTo := none }) ∧
    save_file demoSaveEnv demoContent50 "example.com"
        "https://example.com/2022/doc.pdf" "application/pdf" =
      ((some "data/raw/example.com/2022/doc.pdf", some "2022"),
        { dirsCreated := ["data/raw/example.com", "data/raw/example.com/2022"],
          tempWritten := true, tempRemoved := false,
          renamedTo := some "data/raw/example.com/2022/doc.pdf" }) := by
  constructor
  · rw [(save_file_size_floor demoSaveEnv demoContent49 "example.com"
        "https://example.com/2022/doc.pdf" "application/pdf").1 (by decide)]
    decide
  · rw [(save_file_size_floor demoSaveEnv demoContent50 "example.com"
        "https://example.com/2022/doc.pdf" "application/pdf").2 (by decide)]
    decide

/-! ## Claim C10 -/

/-- C10: the fresh-run reset deletes exactly the keys `url_queue` and
`seen_urls`: both are empty afterwards, the append-only `downloaded_files`
log is unchanged, and so is every other key. -/
theorem fresh_run_reset_frame (store : RedisStore) :
    freshRunReset store "downloaded_files" = store "downloaded_files" ∧
    freshRunReset store "url_queue" = [] ∧
    freshRunReset store "seen_urls" = [] ∧
    (∀ k, k ≠ "url_queue" → k ≠ "seen_urls" → freshRunReset store k = store k) := by
  refine ⟨?_, ?_, ?_, ?_⟩
  · simp [freshRunReset, redisDelete]
  · simp [freshRunReset, redisDelete]
  · simp [freshRunReset, redisDelete]
  · intro k h1 h2
    unfold freshRunReset redisDelete
    rw [if_neg h2, if_neg h1]

/-- Witness for C10 on a concrete store: the download log survives the
reset and an unrelated key is untouched. -/
theorem fresh_run_reset_frame_witness :
    freshRunReset demoStore "downloaded_files" = ["entry1"] ∧
    freshRunReset demoStore "other_key" = ["x"] := by
  constructor
  · rw [(fresh_run_reset_frame demoStore).1]
    decide
  · rw [(fresh_run_reset_frame demoStore).2.2.2 "other_key" (by decide) (by decide)]
    decide

/-! ## Claim C6 -/

/-- C6: the accept gate answers true only when the declared content-type
is in the fixed supported set, and for a declared `application/pdf` whose
bytes parse as a document it accepts exactly when the document is not
encrypted and the text of its first three pages contains none of the
copyright keywords (matched case-insensitively inside
`check_copyright`). -/
theorem should_download_spec (url contentType : String) (c : Content) :
    (should_download url contentType c = true → contentType ∈ SUPPORTED_TYPES) ∧
    (contentType = "application/pdf" → ∀ d, c.pdf = some d →
      should_download url contentType c =
        (!d.encrypted && !check_copyright (first3Text d))) := by
  constructor
  · intro h
    unfold should_download at h
    by_cases hct : contentType = "application/pdf"
    · rw [if_pos hct] at h
      cases hpdf : c.pdf with
      | none => rw [hpdf] at h; cases h
      | some d =>
          rw [hpdf] at h
          dsimp only at h
          by_cases he : d.encrypted = true
          · rw [if_pos he] at h; cases h
          · rw [if_neg he] at h
            by_cases hcp : check_copyright (first3Text d) = true
            · rw [if_pos hcp] at h; cases h
            · rw [if_neg hcp] at h
              simpa using h
    · rw [if_neg hct] at h
      simpa using h
  · intro hct d hd
    subst hct
    unfold should_download
    rw [if_pos rfl, hd]
    dsimp only
    obtain ⟨enc, pages⟩ := d
    cases enc with
    | true => simp
    | false =>
        cases hcp : check_copyright (first3Text ⟨false, pages⟩) with
        | true => simp [hcp]
        | false =>
            simp only [hcp, Bool.not_false, Bool.not_true, Bool.and_self]
            simp [SUPPORTED_TYPES]

/-- Witness for C6: a declared `text/html` content is accepted and lies
in the supported set, and a clean unencrypted PDF with no copyright
marker in its pages is accepted. -/
theorem should_download_spec_witness :
    ("text/html" ∈ SUPPORTED_TYPES) ∧
    should_download "https://a.com/x.pdf" "application/pdf"
        { size := 100, pdf := some { encrypted := false, pages := ["hello world"] },
          yearMetadata := none, yearContent := none } = true := by
  constructor
  · exact (should_download_spec "u" "text/html" demoContent50).1 (by decide)
  · rw [(should_download_spec "https://a.com/x.pdf" "application/pdf"
        { size := 100, pdf := some { encrypted := false, pages := ["hello world"] },
          yearMetadata := none, yearContent := none }).2 rfl
        { encrypted := false, pages := ["hello world"] } rfl]
    decide

/-! ## Traces never contain a robots-exclusion check -/

theorem download_pdf_direct_no_robots (env : Env) (url domain : String) :
    ((download_pdf_direct env url domain).1.any isRobotsEvent) = false := by
  unfold download_pdf_direct
  cases hh : env.httpGet url with
  | error e => simp [isRobotsEvent]
  | ok resp =>
      dsimp only
      by_cases hst : resp.status ≠ 200
      · rw [if_pos hst]
        simp [isRobotsEvent]
      · rw [if_neg hst]
        by_cases hsd : should_download url resp.contentType resp.content = true
        · rw [if_pos hsd]
          simp [isRobotsEvent]
        · rw [if_neg hsd]
          simp [isRobotsEvent]

theorem enqueueLinks_no_robots (ls : List String) :
    ∀ s : Frontier, ((enqueueLinks s ls).2.any isRobotsEvent) = false := by
  induction ls with
  | nil => intro s; simp [enqueueLinks]
  | cons l ls ih =>
      intro s
      unfold enqueueLinks
      by_cases h : l ∈ s.seen
      · rw [if_pos h]
        exact ih s
      · rw [if_neg h]
        dsimp only
        simp [isRobotsEvent, ih (discoverEnqueue s l)]

theorem embeddedLoop_no_robots (recurse : Frontier → String → List Event × Frontier × Bool)
    (hrec : ∀ s d, ((recurse s d).1.any isRobotsEvent) = false) (ds : List String) :
    ∀ s : Frontier, ((embeddedLoop recurse s ds).1.any isRobotsEvent) = false := by
  induction ds with
  | nil => intro s; simp [embeddedLoop]
  | cons d ds ih =>
      intro s
      unfold embeddedLoop
      by_cases h : d ∈ s.seen
      · rw [if_pos h]
        exact ih s
      · rw [if_neg h]
        dsimp only
        simp [List.any_append, hrec, ih]

theorem checkEmbedded_no_robots (recurse : Frontier → String → List Event × Frontier × Bool)
    (hrec : ∀ s d, ((recurse s d).1.any isRobotsEvent) = false)
    (env : Env) (page : Option String) (url : String) (s : Frontier) :
    ((checkEmbedded recurse env page url s).1.any isRobotsEvent) = false := by
  cases page with
  | none => simp [checkEmbedded]
  | some markup =>
      unfold checkEmbedded
      dsimp only
      exact embeddedLoop_no_robots recurse hrec _ s

theorem processUrlStep_no_robots (env : Env)
    (recurse : Frontier → String → List Event × Frontier × Bool)
    (hrec : ∀ s d, ((recurse s d).1.any isRobotsEvent) = false)
    (s : Frontier) (url : String) :
    ((processUrlStep env recurse s url).1.any isRobotsEvent) = false := by
  unfold processUrlStep
  split
  · simp [isRobotsEvent, download_pdf_direct_no_robots]
  · split
    · dsimp only
      split
      · simp [isRobotsEvent, List.any_append, enqueueLinks_no_robots,
          checkEmbedded_no_robots recurse hrec]
      · simp [isRobotsEvent, List.any_append, enqueueLinks_no_robots,
          checkEmbedded_no_robots recurse hrec]
    · split
      · simp [isRobotsEvent]
      · split
        · simp [isRobotsEvent]
        · dsimp only
          split
          · simp [isRobotsEvent, List.any_append, enqueueLinks_no_robots,
              checkEmbedded_no_robots recurse hrec]
          · simp [isRobotsEvent, List.any_append, enqueueLinks_no_robots,
              checkEmbedded_no_robots recurse hrec]

theorem processUrlBody_no_robots (env : Env) :
    ∀ (fuel : Nat) (s : Frontier) (url : String),
      ((processUrlBody env fuel s url).1.any isRobotsEvent) = false := by
  intro fuel
  induction fuel with
  | zero => intro s url; simp [processUrlBody]
  | succ fuel ih =>
      intro s url
      unfold processUrlBody
      apply processUrlStep_no_robots
      intro s1 d
      have hbody := ih s1 d
      cases hb : processUrlBody env fuel s1 d with
      | mk evs rest =>
          rw [hb] at hbody
          cases rest with
          | mk s2 r =>
              cases r with
              | ok b => simpa using hbody
              | error e => simpa using hbody

theorem process_url_events (env : Env) (fuel : Nat) (s : Frontier) (url : String) :
    (process_url env fuel s url).1 = (processUrlBody env fuel s url).1 := by
  unfold process_url
  cases hb : processUrlBody env fuel s url with
  | mk evs rest =>
      cases rest with
      | mk s1 r =>
          cases r with
          | ok b => rfl
          | error e => rfl

/-! ## Claim C3 -/

/-- C3 counterexample: the processing of a concrete dequeued URL fetches
it (an HTTP GET appears in its trace) while no robots-exclusion check
appears in the trace — the politeness gate is not evaluated before the
fetch. -/
theorem robots_check_missing_cex :
    ((process_url demoEnv 5 ⟨[], [], []⟩ "https://a.com/doc.pdf").1.any isFetchEvent) = true ∧
    ((process_url demoEnv 5 ⟨[], [], []⟩ "https://a.com/doc.pdf").1.any isRobotsEvent) = false := by
  decide

/-- C3 amended: for every URL and environment, the per-URL processing
trace never contains an evaluation of the robots-exclusion gate — the
`can_fetch` function has no call site, so every fetch happens without a
robots check; the only politeness measure inside URL-processing is the
randomized delay. -/
theorem robots_never_checked (env : Env) (fuel : Nat) (s : Frontier) (url : String) :
    ((process_url env fuel s url).1.any isRobotsEvent) = false := by
  rw [process_url_events]
  exact processUrlBody_no_robots env fuel s url

/-! ## Claim C4 -/

/-- C4 counterexample: a 200 response whose declared `text/html` type
passes the accept gate but whose 10-byte body fails the save produces a
download-log entry with null year and file path, and the download
reports success — an entry is recorded although no artifact was
archived. -/
theorem download_log_cex :
    logEntries (download_pdf_direct demoEnv "https://a.com/doc.pdf" "a.com").1 =
      [{ timestamp := "T0", url := "https://a.com/doc.pdf", domain := "a.com",
         year := none, filePath := none }] ∧
    (download_pdf_direct demoEnv "https://a.com/doc.pdf" "a.com").2 = Except.ok true ∧
    (save_file demoEnv.save
        { size := 10, pdf := none, yearMetadata := none, yearContent := none }
        "a.com" "https://a.com/doc.pdf" "text/html").1 = (none, none) := by
  decide

/-- C4 amended: a download-log entry is recorded exactly when the direct
download gets a 200 status and the accept gate passes: one entry per
such attempt, carrying whatever path and year `save_file` returned —
null when the save failed — and the download then reports success
regardless; no entry is recorded on a non-200 status or a rejected
content. -/
theorem download_log_spec (env : Env) (url domain : String) (resp : HttpResp)
    (h : env.httpGet url = Except.ok resp) :
    (resp.status = 200 → should_download url resp.contentType resp.content = true →
      logEntries (download_pdf_direct env url domain).1 =
        [{ timestamp := env.save.now, url := url, domain := domain,
           year := (save_file env.save resp.content domain url resp.contentType).1.2,
           filePath := (save_file env.save resp.content domain url resp.contentType).1.1 }] ∧
      (download_pdf_direct env url domain).2 = Except.ok true) ∧
    (resp.status ≠ 200 → logEntries (download_pdf_direct env url domain).1 = []) ∧
    (should_download url resp.contentType resp.content = false →
      logEntries (download_pdf_direct env url domain).1 = []) := by
  unfold download_pdf_direct
  rw [h]
  dsimp only
  refine ⟨?_, ?_, ?_⟩
  · intro h200 hsd
    rw [if_neg (fun hne => hne h200), if_pos hsd]
    exact ⟨by simp [logEntries], rfl⟩
  · intro hne
    rw [if_pos hne]
    simp [logEntries]
  · intro hsd
    by_cases h200 : resp.status ≠ 200
    · rw [if_pos h200]
      simp [logEntries]
    · rw [if_neg h200, if_neg (by simp [hsd])]
      simp [logEntries]

/-- Witness for C4 amended at a concrete input: the accepted-but-failed
save records exactly one entry whose year and path are the null results
of `save_file`. -/
theorem download_log_spec_witness :
    logEntries (download_pdf_direct demoEnv "https://a.com/page.pdf" "a.com").1 =
      [{ timestamp := "T0", url := "https://a.com/page.pdf", domain := "a.com",
         year := none, filePath := none }] := by
  have h := (download_log_spec demoEnv "https://a.com/page.pdf" "a.com"
      { status := 200, contentType := "text/html",
        content := { size := 10, pdf := none, yearMetadata := none, yearContent := none } }
      rfl).1 rfl (by decide)
  rw [h.1]
  decide

/-! ## Claim C9 -/

theorem process_url_ok (env : Env) (fuel : Nat) (s : Frontier) (url : String) :
    ∃ b, (process_url env fuel s url).2.2 = Except.ok b := by
  unfold process_url
  cases hb : processUrlBody env fuel s url with
  | mk evs rest =>
      cases rest with
      | mk s1 r =>
          cases r with
          | ok b => exact ⟨b, rfl⟩
          | error e => exact ⟨false, rfl⟩

theorem crawlLoop_no_crash (env : Env) (fuel : Nat) :
    ∀ (n : Nat) (s : Frontier), (crawlLoop env fuel n s).2.2 = false := by
  intro n
  induction n with
  | zero => intro s; rfl
  | succ n ih =>
      intro s
      unfold crawlLoop
      cases hp : popUrl s with
      | mk u s1 =>
          cases u with
          | none =>
              dsimp only
              exact ih s1
          | some v =>
              dsimp only
              cases hpr : process_url env fuel s1 (pyStrip v) with
              | mk evs rest =>
                  cases rest with
                  | mk s2 r =>
                      cases r with
                      | ok b =>
                          dsimp only
                          exact ih s2
                      | error e =>
                          obtain ⟨b, hb⟩ := process_url_ok env fuel s1 (pyStrip v)
                          rw [hpr] at hb
                          simp at hb

/-- C9: any failure inside per-URL processing — a fetch, classification
or storage error raised by the environment, and even recursion
exhaustion — is caught at the processing boundary and converted into a
boolean result, so `process_url` never returns an escaped exception and
the crawl loop is never killed by one: its crash flag is false after any
number of iterations from any frontier. -/
theorem per_url_failures_contained (env : Env) (fuel : Nat) (s : Frontier) (url : String)
    (n : Nat) (s0 : Frontier) :
    (∃ b, (process_url env fuel s url).2.2 = Except.ok b) ∧
    (crawlLoop env fuel n s0).2.2 = false :=
  ⟨process_url_ok env fuel s url, crawlLoop_no_crash env fuel n s0⟩

end Crawler
